import Mathlib

set_option maxRecDepth 10000

/-!
Shallow embedding of the news-scraper backend (`/api/scrape` handler and its
helpers `parseTimeString`, `determineCategory`) together with the request
handling that the React front end talks to.

External libraries (axios, cheerio, the WHATWG `URL` class, `Date` parsing)
are abstracted:
  * a `Candidate` holds the already-extracted, trimmed query results for one
    article node (what cheerio's `.find(...).first().text().trim()` and
    `.attr(...)` return);
  * URL parsing results (`hostname`, `origin`) and the clock (`now`, in epoch
    milliseconds) live in a `ScrapeContext`;
  * `Date`-string parsing is an abstract `parseDate : String → Option Int`;
  * `resolveUrl` models WHATWG relative-reference resolution against an
    origin for the reference shapes that occur here.
All decision logic of the backend itself (gates, caps, fallbacks, dedup,
category and time rules) is translated line by line from the source.
-/

namespace NewsScraper

/-- JS `String.prototype.toLowerCase` (ASCII case folding; all text the
backend folds is compared by literal ASCII keywords). -/
def jsToLower (s : String) : String :=
  ⟨s.data.map Char.toLower⟩

/-- `String.take` by characters (JS `substring(0, n)`). -/
def strTake (s : String) (n : Nat) : String :=
  ⟨s.data.take n⟩

/-- JS `String.prototype.startsWith`. -/
def strStartsWith (s pre : String) : Bool :=
  pre.data.isPrefixOf s.data

/-- JS `String.prototype.includes`: substring containment. -/
def containsSub (hay needle : String) : Bool :=
  hay.data.tails.any (fun t => needle.data.isPrefixOf t)

/-- Remove the first occurrence of `needle` from the list (helper for JS
`String.prototype.replace(needle, '')`, which replaces only the first
occurrence, anywhere in the string). -/
def removeFirstOcc (needle : List Char) : List Char → List Char
  | [] => []
  | c :: rest =>
    if needle.isPrefixOf (c :: rest) then (c :: rest).drop needle.length
    else c :: removeFirstOcc needle rest

/-- Line 86 of the backend: `new URL(url).hostname.replace('www.', '')` —
JS `replace` with a string pattern removes the FIRST occurrence of
`"www."`, wherever it occurs in the hostname. -/
def stripWWW (host : String) : String :=
  ⟨removeFirstOcc "www.".data host.data⟩

/-- First maximal run of decimal digits in the character list
(JS `str.match(/\d+/)?.[0]`). -/
def firstDigitRun : List Char → Option (List Char)
  | [] => none
  | c :: rest =>
    if c.isDigit then some (c :: rest.takeWhile Char.isDigit)
    else firstDigitRun rest

/-- Decimal value of a digit string (JS `parseInt` on a pure digit run). -/
def digitsToNat (ds : List Char) : Nat :=
  ds.foldl (fun acc c => 10 * acc + (c.toNat - 48)) 0

/-- `parseInt(str.match(/\d+/)?.[0] || dflt)`: the first integer that occurs
in the text, or the given default if none. -/
def firstNat (s : String) (dflt : Nat) : Nat :=
  match firstDigitRun s.data with
  | some ds => digitsToNat ds
  | none => dflt

/-- Backend `parseTimeString` (lines 118-143).  `now` is the current time in
epoch milliseconds; `parseDate` abstracts `new Date(timeStr)` absolute
date parsing (`none` for `Invalid Date`).  Returns the normalized absolute
timestamp in epoch milliseconds, or `none`. -/
def parseTimeString (now : Int) (parseDate : String → Option Int)
    (timeStr : String) : Option Int :=
  if timeStr = "" then none
  else
    let lowerTime := jsToLower timeStr
    if containsSub lowerTime "hour" || containsSub lowerTime "hr" then
      some (now - (firstNat lowerTime 1 : Int) * (60 * 60 * 1000))
    else if containsSub lowerTime "minute" || containsSub lowerTime "min" then
      some (now - (firstNat lowerTime 30 : Int) * (60 * 1000))
    else if containsSub lowerTime "day" then
      some (now - (firstNat lowerTime 1 : Int) * (24 * 60 * 60 * 1000))
    else parseDate timeStr

/-- Modelled from the spec (§4.4): the time normalizer as an ordered rule
table — each rule is (trigger keywords, default `N`, milliseconds per
unit); the first rule whose keyword occurs in the case-folded text wins,
otherwise the text is handed to absolute date parsing. -/
def specTimeRules : List (List String × Nat × Int) :=
  [ (["hour", "hr"], 1, 60 * 60 * 1000),
    (["minute", "min"], 30, 60 * 1000),
    (["day"], 1, 24 * 60 * 60 * 1000) ]

/-- Modelled from the spec (§4.4): normalize a free-form time string using
the rule table `specTimeRules`. -/
def specNormalizeTime (now : Int) (parseDate : String → Option Int)
    (timeStr : String) : Option Int :=
  if timeStr = "" then none
  else
    let lower := jsToLower timeStr
    match specTimeRules.find? (fun r => r.1.any (fun k => containsSub lower k)) with
    | some r => some (now - (firstNat lower r.2.1 : Int) * r.2.2)
    | none => parseDate timeStr

/-- `lower` contains at least one of the keywords (each backend category
regex is an alternation of literal substrings). -/
def matchesAny (lower : String) (keywords : List String) : Bool :=
  keywords.any (fun k => containsSub lower k)

def techKeywords : List String :=
  ["tech", "ai", "software", "computer", "digital", "cyber", "robot", "algorithm"]

def healthKeywords : List String :=
  ["health", "medical", "doctor", "hospital", "disease", "vaccine", "medicine"]

def businessKeywords : List String :=
  ["business", "economy", "market", "finance", "stock", "trade", "company"]

def sportsKeywords : List String :=
  ["sport", "football", "soccer", "basketball", "tennis", "game", "match"]

def politicsKeywords : List String :=
  ["politic", "government", "election", "vote", "president", "minister"]

def worldKeywords : List String :=
  ["climate", "environment", "green", "carbon", "pollution", "energy"]

/-- Backend `determineCategory` (lines 146-157): chain of case-insensitive
regex tests, each an alternation of literal substrings, first match wins. -/
def determineCategory (content : String) : String :=
  let lower := jsToLower content
  if matchesAny lower techKeywords then "Technology"
  else if matchesAny lower healthKeywords then "Health"
  else if matchesAny lower businessKeywords then "Business"
  else if matchesAny lower sportsKeywords then "Sports"
  else if matchesAny lower politicsKeywords then "Politics"
  else if matchesAny lower worldKeywords then "World"
  else "General"

/-- Modelled from the spec (§4.5, §9): the classifier as an ordered table of
(label, keyword group) pairs. -/
def categoryTable : List (String × List String) :=
  [ ("Technology", techKeywords),
    ("Health", healthKeywords),
    ("Business", businessKeywords),
    ("Sports", sportsKeywords),
    ("Politics", politicsKeywords),
    ("World", worldKeywords) ]

/-- Modelled from the spec (§4.5): return the first matching group's label,
or "General" if none match. -/
def specClassify (content : String) : String :=
  let lower := jsToLower content
  match categoryTable.find? (fun g => matchesAny lower g.2) with
  | some g => g.1
  | none => "General"

/-- Model of WHATWG URL resolution `new URL(link, origin).href` for the
reference shapes occurring here: a reference with a `://` is already
absolute; otherwise it is path-resolved against the origin. -/
def resolveUrl (origin : String) (link : String) : String :=
  if containsSub link "://" then link
  else if strStartsWith link "/" then origin ++ link
  else origin ++ "/" ++ link

/-- Does the string start with a URI scheme (RFC 3986:
`ALPHA *( ALPHA / DIGIT / "+" / "-" / "." )` followed by `":"`)?
Spec-side notion used by §4.3 "If the href is relative (does not start
with a scheme)". -/
def schemeTail : List Char → Bool
  | [] => false
  | c :: rest =>
    if c = ':' then true
    else if c.isAlphanum || c = '+' || c = '-' || c = '.' then schemeTail rest
    else false

/-- See `schemeTail`: first character must be a letter. -/
def startsWithScheme (s : String) : Bool :=
  match s.data with
  | [] => false
  | c :: rest => c.isAlpha && schemeTail rest

/-- Raw per-candidate extraction results handed over by the document model:
the trimmed text of the first title-, summary-, paragraph- and time-like
descendant, the first anchor's `href` attribute (`none` when there is no
anchor or no attribute) and the first time-like node's `datetime`
attribute. -/
structure Candidate where
  titleText : String
  summaryText : String
  firstParagraph : String
  href : Option String
  timeText : String
  datetimeAttr : Option String
deriving Repr, DecidableEq

/-- One output record (backend lines 82-91).  `publishedAt` is kept as epoch
milliseconds (the backend serializes it with `toISOString`). -/
structure Article where
  id : Nat
  title : String
  summary : String
  source : String
  publishedAt : Int
  url : String
  category : String
  readTime : String
deriving Repr, DecidableEq

/-- Per-request environment: the requested `url`, the results of
`new URL(url)` (`hostname`, `origin`), the current time and the abstract
absolute-date parser. -/
structure ScrapeContext where
  url : String
  hostname : String
  origin : String
  now : Int
  parseDate : String → Option Int

/-- Backend lines 66-74 and 88: take the first anchor's href; if it is
present, non-empty and does not start with the literal `"http"`, resolve
it against the origin of the requested URL; the record's `url` is the
(possibly resolved) link if truthy, else the requested URL. -/
def resolveLink (ctx : ScrapeContext) (href : Option String) : String :=
  let link0 := href.getD ""
  let link1 :=
    if link0 ≠ "" ∧ ¬ strStartsWith link0 "http" then resolveUrl ctx.origin link0
    else link0
  if link1 ≠ "" then link1 else ctx.url

/-- Backend lines 51-92: assemble the record for one candidate node.
`len` is the number of records already pushed (`articles.length`), so the
new record gets id `len + 1`.  Returns `none` when the title gate
(line 81: `title && title.length > 15 && title.length < 200`) fails. -/
def buildArticle (ctx : ScrapeContext) (c : Candidate) (len : Nat) :
    Option Article :=
  let title := c.titleText
  let summary := if c.summaryText = "" then c.firstParagraph else c.summaryText
  let timeText := if c.timeText = "" then c.datetimeAttr.getD "" else c.timeText
  if title ≠ "" ∧ 15 < title.length ∧ title.length < 200 then
    some
      { id := len + 1
        title := title
        summary :=
          if 300 < summary.length then strTake summary 300 ++ "..."
          else if summary = "" then "No summary available" else summary
        source := stripWWW ctx.hostname
        publishedAt := (parseTimeString ctx.now ctx.parseDate timeText).getD ctx.now
        url := resolveLink ctx c.href
        category := determineCategory (title ++ " " ++ summary)
        readTime :=
          toString (max 1 (((if summary = "" then title else summary).length + 199) / 200))
            ++ " min read" }
  else none

/-- Backend lines 48-93: the cheerio `.each` loop.  `index` is the 0-based
candidate index; `return false` at index 25 stops the whole traversal. -/
def extractLoop (ctx : ScrapeContext) : Nat → List Candidate → List Article → List Article
  | _, [], acc => acc
  | index, c :: rest, acc =>
    if 25 ≤ index then acc
    else
      match buildArticle ctx c acc.length with
      | some a => extractLoop ctx (index + 1) rest (acc ++ [a])
      | none => extractLoop ctx (index + 1) rest acc

/-- The `articles` array after the extraction loop. -/
def extractArticles (ctx : ScrapeContext) (cands : List Candidate) : List Article :=
  extractLoop ctx 0 cands []

/-- JS `Array.prototype.filter` with an index-aware callback. -/
def jsFilterWithIndex (f : α → Nat → Bool) : Nat → List α → List α
  | _, [] => []
  | i, a :: rest =>
    if f a i then a :: jsFilterWithIndex f (i + 1) rest
    else jsFilterWithIndex f (i + 1) rest

/-- Dedup key: `title.toLowerCase().substring(0, 50)` (line 98). -/
def dedupKey (a : Article) : String :=
  strTake (jsToLower a.title) 50

/-- Backend lines 96-100: keep `articles[index]` iff `index` is the first
index whose dedup key equals its own. -/
def dedup (l : List Article) : List Article :=
  jsFilterWithIndex
    (fun article index =>
      l.findIdx (fun a => dedupKey a == dedupKey article) == index)
    0 l

/-- Modelled from the spec (§4.6): first-occurrence deduplication — walk the
list keeping a set of already-seen keys; keep a record iff its key is new. -/
def specDedup (seen : List String) : List Article → List Article
  | [] => []
  | a :: rest =>
    if dedupKey a ∈ seen then specDedup seen rest
    else a :: specDedup (dedupKey a :: seen) rest

/-- The response payload of a successful scrape (lines 102-106). -/
structure ScrapeResponse where
  articles : List Article
  total : Nat
  source : String
deriving Repr, DecidableEq

/-- Lines 44-106: extraction loop, dedup, final cap of 20, `total` from the
post-dedup pre-cap list, response-level `source` = full hostname. -/
def scrape (ctx : ScrapeContext) (cands : List Candidate) : ScrapeResponse :=
  let articles := extractArticles ctx cands
  let uniqueArticles := dedup articles
  { articles := uniqueArticles.take 20
    total := uniqueArticles.length
    source := ctx.hostname }

/-- The JSON request body the front end sends (`NewsScraper.js` lines 38-41):
a `url` and a client-supplied `selectors` configuration. -/
structure ScrapeRequestBody where
  url : Option String
  selectors : Option (List (String × String))

/-- The world outside the handler, abstracted per requested URL: `mkCtx`
bundles `new URL(url)` parsing and the clock, `fetchCandidates` bundles
the axios fetch plus cheerio candidate discovery with the backend's own
hard-coded selector set (lines 22-28). -/
structure BackendEnv where
  mkCtx : String → ScrapeContext
  fetchCandidates : String → List Candidate

/-- Outcome of the handler on the modelled paths. -/
inductive HandlerResult where
  | badRequest (error : String)
  | ok (resp : ScrapeResponse)

/-- Backend lines 13-106: the handler destructures ONLY `url` from the
request body (line 15); a missing or empty `url` is a 400, anything else
runs the pipeline. -/
def handleScrape (env : BackendEnv) (body : ScrapeRequestBody) : HandlerResult :=
  match body.url with
  | none => HandlerResult.badRequest "URL is required"
  | some u =>
    if u = "" then HandlerResult.badRequest "URL is required"
    else HandlerResult.ok (scrape (env.mkCtx u) (env.fetchCandidates u))

/-! ## Helper lemmas -/

lemma buildArticle_isSome (ctx : ScrapeContext) (c : Candidate) (len : Nat) :
    (buildArticle ctx c len).isSome = true ↔
      (c.titleText ≠ "" ∧ 15 < c.titleText.length ∧ c.titleText.length < 200) := by
  unfold buildArticle
  split <;> simp_all

lemma buildArticle_fields (ctx : ScrapeContext) (c : Candidate) (len : Nat)
    (a : Article) (h : buildArticle ctx c len = some a) :
    a.id = len + 1 ∧ a.title = c.titleText ∧ a.source = stripWWW ctx.hostname ∧
      a.url = resolveLink ctx c.href := by
  unfold buildArticle at h
  by_cases hg : c.titleText ≠ "" ∧ 15 < c.titleText.length ∧ c.titleText.length < 200
  · rw [if_pos hg] at h
    cases h
    exact ⟨rfl, rfl, rfl, rfl⟩
  · rw [if_neg hg] at h
    cases h

lemma extractLoop_take (ctx : ScrapeContext) :
    ∀ (l : List Candidate) (i : Nat) (acc : List Article),
      extractLoop ctx i l acc = extractLoop ctx i (l.take (25 - i)) acc := by
  intro l
  induction l with
  | nil => intro i acc; simp
  | cons c rest ih =>
    intro i acc
    by_cases h : 25 ≤ i
    · have h0 : 25 - i = 0 := Nat.sub_eq_zero_of_le h
      simp [extractLoop, h, h0]
    · have hsucc : 25 - i = (25 - (i + 1)) + 1 := by omega
      rw [hsucc, List.take_succ_cons]
      show extractLoop ctx i (c :: rest) acc
        = extractLoop ctx i (c :: rest.take (25 - (i + 1))) acc
      rw [extractLoop, extractLoop, if_neg h, if_neg h]
      cases hb : buildArticle ctx c acc.length with
      | some a => simp only [ih]
      | none => simp only [ih]

lemma extractLoop_mem (ctx : ScrapeContext) :
    ∀ (l : List Candidate) (i : Nat) (acc : List Article) (a : Article),
      a ∈ extractLoop ctx i l acc →
        a ∈ acc ∨ ∃ c len, buildArticle ctx c len = some a := by
  intro l
  induction l with
  | nil => intro i acc a ha; exact Or.inl ha
  | cons c rest ih =>
    intro i acc a ha
    rw [extractLoop] at ha
    by_cases h : 25 ≤ i
    · rw [if_pos h] at ha; exact Or.inl ha
    · rw [if_neg h] at ha
      cases hb : buildArticle ctx c acc.length with
      | some b =>
        rw [hb] at ha
        rcases ih (i + 1) (acc ++ [b]) a ha with hacc | hex
        · rcases List.mem_append.mp hacc with h1 | h1
          · exact Or.inl h1
          · refine Or.inr ⟨c, acc.length, ?_⟩
            rw [hb]
            simp only [List.mem_singleton] at h1
            rw [h1]
        · exact Or.inr hex
      | none =>
        rw [hb] at ha
        exact ih (i + 1) acc a ha

lemma extractLoop_ids (ctx : ScrapeContext) :
    ∀ (l : List Candidate) (i : Nat) (acc : List Article),
      acc.map (fun a => a.id) = List.range' 1 acc.length →
        (extractLoop ctx i l acc).map (fun a => a.id)
          = List.range' 1 (extractLoop ctx i l acc).length := by
  intro l
  induction l with
  | nil => intro i acc hacc; exact hacc
  | cons c rest ih =>
    intro i acc hacc
    rw [extractLoop]
    by_cases h : 25 ≤ i
    · rw [if_pos h]; exact hacc
    · rw [if_neg h]
      cases hb : buildArticle ctx c acc.length with
      | some b =>
        refine ih (i + 1) (acc ++ [b]) ?_
        have hid : b.id = acc.length + 1 := (buildArticle_fields ctx c acc.length b hb).1
        rw [List.map_append, List.length_append, hacc]
        simp only [List.map_cons, List.map_nil, hid, List.length_singleton]
        rw [List.range'_concat]
        simp [Nat.add_comm]
      | none => exact ih (i + 1) acc hacc

lemma extractArticles_ids (ctx : ScrapeContext) (cands : List Candidate) :
    (extractArticles ctx cands).map (fun a => a.id)
      = List.range' 1 (extractArticles ctx cands).length :=
  extractLoop_ids ctx cands 0 [] rfl

lemma jsFilterWithIndex_congr {α : Type} (f g : α → Nat → Bool)
    (h : ∀ a i, f a i = g a i) :
    ∀ (l : List α) (i : Nat), jsFilterWithIndex f i l = jsFilterWithIndex g i l := by
  intro l
  induction l with
  | nil => intro i; rfl
  | cons a rest ih =>
    intro i
    simp only [jsFilterWithIndex, h]
    cases hg : g a i <;> simp [hg, ih (i + 1)]

lemma jsFilterWithIndex_shift {α : Type} (f g : α → Nat → Bool)
    (h : ∀ a i, f a (i + 1) = g a i) :
    ∀ (l : List α) (i : Nat), jsFilterWithIndex f (i + 1) l = jsFilterWithIndex g i l := by
  intro l
  induction l with
  | nil => intro i; rfl
  | cons a rest ih =>
    intro i
    simp only [jsFilterWithIndex, h]
    cases hg : g a i <;> simp [hg, ih (i + 1)]

lemma specDedup_congr_seen : ∀ (l : List Article) (s1 s2 : List String),
    (∀ k, k ∈ s1 ↔ k ∈ s2) → specDedup s1 l = specDedup s2 l := by
  intro l
  induction l with
  | nil => intro s1 s2 _; rfl
  | cons a rest ih =>
    intro s1 s2 hs
    rw [specDedup, specDedup]
    by_cases hm : dedupKey a ∈ s1
    · rw [if_pos hm, if_pos ((hs _).mp hm)]
      exact ih s1 s2 hs
    · rw [if_neg hm, if_neg (fun hc => hm ((hs _).mpr hc))]
      rw [ih (dedupKey a :: s1) (dedupKey a :: s2) (by intro k; simp [hs k])]

lemma dedupFilter_eq_specDedup :
    ∀ (l : List Article) (seen : List String),
      jsFilterWithIndex
        (fun article index =>
          decide (dedupKey article ∉ seen) &&
            (l.findIdx (fun a => dedupKey a == dedupKey article) == index)) 0 l
        = specDedup seen l := by
  intro l
  induction l with
  | nil => intro seen; rfl
  | cons hd tl ih =>
    intro seen
    have hpt : ∀ (article : Article) (i : Nat),
        (decide (dedupKey article ∉ seen) &&
          ((hd :: tl).findIdx (fun a => dedupKey a == dedupKey article) == i + 1))
        = (decide (dedupKey article ∉ (dedupKey hd :: seen)) &&
            (tl.findIdx (fun a => dedupKey a == dedupKey article) == i)) := by
      intro article i
      rw [List.findIdx_cons]
      cases hk : (dedupKey hd == dedupKey article) with
      | true =>
        have hmem : dedupKey article ∈ dedupKey hd :: seen := by
          rw [beq_iff_eq] at hk
          rw [hk]
          exact List.mem_cons_self _ _
        simp [hmem]
      | false =>
        have hne : dedupKey article ≠ dedupKey hd := by
          intro he
          rw [he] at hk
          simp at hk
        simp [List.mem_cons, hne]
    have hhead :
        ((hd :: tl).findIdx (fun a => dedupKey a == dedupKey hd) == 0)
          = true := by
      simp [List.findIdx_cons]
    rw [specDedup]
    simp only [jsFilterWithIndex, hhead, Bool.and_true]
    by_cases hm : dedupKey hd ∈ seen
    · rw [if_pos hm, if_neg (by simp [hm])]
      rw [jsFilterWithIndex_shift _ _ hpt tl 0]
      rw [ih (dedupKey hd :: seen)]
      exact specDedup_congr_seen tl _ _
        (by intro k; simp only [List.mem_cons]; constructor
            · rintro (hk | hk)
              · rw [hk]; exact hm
              · exact hk
            · intro hk; exact Or.inr hk)
    · rw [if_neg hm, if_pos (by simp [hm])]
      rw [jsFilterWithIndex_shift _ _ hpt tl 0]
      rw [ih (dedupKey hd :: seen)]

lemma dedup_eq_specDedup (l : List Article) : dedup l = specDedup [] l := by
  unfold dedup
  exact (jsFilterWithIndex_congr _ _
    (by intro a i; simp) l 0).trans (dedupFilter_eq_specDedup l [])

lemma specDedup_sublist : ∀ (l : List Article) (seen : List String),
    (specDedup seen l).Sublist l := by
  intro l
  induction l with
  | nil => intro seen; exact List.Sublist.refl []
  | cons a rest ih =>
    intro seen
    rw [specDedup]
    by_cases hm : dedupKey a ∈ seen
    · rw [if_pos hm]; exact (ih seen).cons a
    · rw [if_neg hm]; exact (ih _).cons₂ a

lemma specDedup_key_not_seen : ∀ (l : List Article) (seen : List String) (a : Article),
    a ∈ specDedup seen l → dedupKey a ∉ seen := by
  intro l
  induction l with
  | nil => intro seen a ha; simp [specDedup] at ha
  | cons b rest ih =>
    intro seen a ha
    rw [specDedup] at ha
    by_cases hm : dedupKey b ∈ seen
    · rw [if_pos hm] at ha; exact ih seen a ha
    · rw [if_neg hm] at ha
      rcases List.mem_cons.mp ha with h1 | h2
      · rw [h1]; exact hm
      · have h3 := ih (dedupKey b :: seen) a h2
        intro hc
        exact h3 (List.mem_cons_of_mem _ hc)

lemma specDedup_pairwise_keys : ∀ (l : List Article) (seen : List String),
    (specDedup seen l).Pairwise (fun x y => dedupKey x ≠ dedupKey y) := by
  intro l
  induction l with
  | nil => intro seen; simp [specDedup]
  | cons b rest ih =>
    intro seen
    rw [specDedup]
    by_cases hm : dedupKey b ∈ seen
    · rw [if_pos hm]; exact ih seen
    · rw [if_neg hm]
      rw [List.pairwise_cons]
      refine ⟨?_, ih _⟩
      intro a ha hc
      exact specDedup_key_not_seen rest (dedupKey b :: seen) a ha
        (List.mem_cons.mpr (Or.inl hc.symm))

lemma specDedup_eq_self : ∀ (m : List Article) (seen : List String),
    (∀ a ∈ m, dedupKey a ∉ seen) →
    m.Pairwise (fun x y => dedupKey x ≠ dedupKey y) → specDedup seen m = m := by
  intro m
  induction m with
  | nil => intro seen _ _; rfl
  | cons b rest ih =>
    intro seen hseen hpw
    rw [specDedup, if_neg (hseen b (List.mem_cons_self b rest))]
    congr 1
    rcases List.pairwise_cons.mp hpw with ⟨hb, hrest⟩
    refine ih _ ?_ hrest
    intro a ha hc
    rcases List.mem_cons.mp hc with h1 | h1
    · exact hb a ha h1.symm
    · exact hseen a (List.mem_cons_of_mem _ ha) h1

lemma dedup_idem_aux (l : List Article) : dedup (dedup l) = dedup l := by
  rw [dedup_eq_specDedup, dedup_eq_specDedup]
  exact specDedup_eq_self _ _
    (fun a _ => List.not_mem_nil (dedupKey a))
    (specDedup_pairwise_keys l [])

lemma mem_scrape (ctx : ScrapeContext) (cands : List Candidate) (a : Article)
    (ha : a ∈ (scrape ctx cands).articles) :
    ∃ c len, buildArticle ctx c len = some a := by
  have ha2 : a ∈ (dedup (extractArticles ctx cands)).take 20 := ha
  have h1 : a ∈ dedup (extractArticles ctx cands) :=
    (List.take_sublist 20 _).subset ha2
  have h2 : a ∈ extractArticles ctx cands := by
    rw [dedup_eq_specDedup] at h1
    exact (specDedup_sublist _ []).subset h1
  rcases extractLoop_mem ctx cands 0 [] a h2 with h3 | h3
  · cases h3
  · exact h3

lemma string_append_ne_empty_right (o l : String) (h : l ≠ "") : o ++ l ≠ "" := by
  intro he
  apply h
  cases o with
  | mk od =>
    cases l with
    | mk ld =>
      have hd : od ++ ld = [] := congrArg String.data he
      rw [(List.append_eq_nil.mp hd).2]

lemma resolveUrl_ne_empty (o l : String) (h : l ≠ "") : resolveUrl o l ≠ "" := by
  unfold resolveUrl
  split
  · exact h
  · split
    · exact string_append_ne_empty_right o l h
    · exact string_append_ne_empty_right (o ++ "/") l h

lemma removeFirstOcc_of_no_occ (needle : List Char) :
    ∀ l : List Char, l.tails.any (fun t => needle.isPrefixOf t) = false →
      removeFirstOcc needle l = l := by
  intro l
  induction l with
  | nil => intro _; rfl
  | cons c rest ih =>
    intro hno
    rw [List.tails_cons, List.any_cons, Bool.or_eq_false_iff] at hno
    rw [removeFirstOcc, if_neg (by simp [hno.1])]
    rw [ih hno.2]

/-! ## Concrete fixtures used in example conjuncts, counterexamples and
witnesses -/

def exampleCtx : ScrapeContext :=
  { url := "https://news.example.com/home"
    hostname := "news.example.com"
    origin := "https://news.example.com"
    now := 0
    parseDate := fun _ => none }

/-- A candidate with a title only, as produced for a bare news card. -/
def plainCand (t : String) : Candidate :=
  { titleText := t
    summaryText := ""
    firstParagraph := ""
    href := none
    timeText := ""
    datetimeAttr := none }

/-- 30 candidates with distinct valid titles. -/
def distinctCand (i : Nat) : Candidate :=
  plainCand ("Breaking news story number " ++ toString i)

/-- The record the pipeline produces for
`plainCand "Apple Falls From Tree Today in Park"` under `exampleCtx`. -/
def appleArticle : Article :=
  { id := 1
    title := "Apple Falls From Tree Today in Park"
    summary := "No summary available"
    source := "news.example.com"
    publishedAt := 0
    url := "https://news.example.com/home"
    category := "General"
    readTime := "1 min read" }

/-- A bare record with a given id and title, for dedup examples. -/
def artFromTitle (i : Nat) (t : String) : Article :=
  { id := i
    title := t
    summary := "s"
    source := "src"
    publishedAt := 0
    url := "u"
    category := "General"
    readTime := "1 min read" }

/-- 59-character title: its first 50 characters end inside "the Hill". -/
def artA : Article :=
  artFromTitle 1 "Apple Falls From Tree Today in Park and Rolls Down the Hill"

/-- Same first 50 characters as `artA` after case folding, different tail. -/
def artB : Article :=
  artFromTitle 2 "APPLE FALLS FROM TREE TODAY IN PARK AND ROLLS DOWN A SLOPE"

def artC : Article :=
  artFromTitle 3 "Completely Different Headline Here"

/-- Input for the id-density counterexample: two candidates with equal
titles followed by a distinct one. -/
def c4Cands : List Candidate :=
  [ plainCand "Apple Falls From Tree Today in Park",
    plainCand "Apple Falls From Tree Today in Park",
    plainCand "Completely Different Headline Here" ]

/-- Candidate whose first anchor's href starts with the literal "http" but
has no URI scheme. -/
def c7Cand : Candidate :=
  { titleText := "Stories from around the world today"
    summaryText := ""
    firstParagraph := ""
    href := some "http-news/story-1"
    timeText := ""
    datetimeAttr := none }

/-- Context whose requested URL has a hostname with an interior "www.". -/
def c9Ctx : ScrapeContext :=
  { url := "https://news.www.example.com/home"
    hostname := "news.www.example.com"
    origin := "https://news.www.example.com"
    now := 0
    parseDate := fun _ => none }

def witnessEnv : BackendEnv :=
  { mkCtx := fun u =>
      { url := u
        hostname := "example.com"
        origin := "https://example.com"
        now := 0
        parseDate := fun _ => none }
    fetchCandidates := fun _ => [plainCand "Apple Falls From Tree Today in Park"] }

def bodyWithSelectors : ScrapeRequestBody :=
  { url := some "https://example.com/news"
    selectors := some [("article", "article, .post, .story"), ("title", "h1, h2, h3")] }

def bodyWithoutSelectors : ScrapeRequestBody :=
  { url := some "https://example.com/news"
    selectors := none }

/-! ## Claim theorems -/

/-- C1: a candidate becomes an output record if and only if its extracted
title is non-empty and its character length is strictly greater than 15 and
strictly less than 200, and every record in the response satisfies
`15 < len(title) < 200`.  A failing candidate yields `none` (silent drop —
the pipeline is total, there is no error path for it). -/
theorem c1_title_gate (ctx : ScrapeContext) (cands : List Candidate) :
    (∀ (c : Candidate) (len : Nat),
       (buildArticle ctx c len).isSome = true ↔
         (c.titleText ≠ "" ∧ 15 < c.titleText.length ∧ c.titleText.length < 200))
  ∧ (∀ a ∈ (scrape ctx cands).articles,
       a.title ≠ "" ∧ 15 < a.title.length ∧ a.title.length < 200) := by
  constructor
  · intro c len
    exact buildArticle_isSome ctx c len
  · intro a ha
    rcases mem_scrape ctx cands a ha with ⟨c, len, hb⟩
    have ht := (buildArticle_fields ctx c len a hb).2.1
    have hg : c.titleText ≠ "" ∧ 15 < c.titleText.length ∧ c.titleText.length < 200 := by
      rw [← buildArticle_isSome ctx c len, hb]
      rfl
    rw [ht]
    exact hg

/-- Witness for C1 at a concrete input: the pipeline on one valid candidate
produces `appleArticle`, and the theorem's second part applies to it. -/
theorem c1_title_gate_witness :
    appleArticle ∈ (scrape exampleCtx [plainCand "Apple Falls From Tree Today in Park"]).articles
  ∧ (appleArticle.title ≠ "" ∧ 15 < appleArticle.title.length ∧ appleArticle.title.length < 200) :=
  ⟨by decide,
   (c1_title_gate exampleCtx [plainCand "Apple Falls From Tree Today in Park"]).2
     appleArticle (by decide)⟩

/-- C2: the traversal examines only the first 25 candidates, the response
holds at most 20 records, `total` is the post-dedup pre-cap count, and on
30 valid candidates with distinct titles the response has exactly 20
records with `total ≥ 20` (in fact 25). -/
theorem c2_caps (ctx : ScrapeContext) (cands : List Candidate) :
    extractArticles ctx cands = extractArticles ctx (cands.take 25)
  ∧ (scrape ctx cands).articles.length ≤ 20
  ∧ (scrape ctx cands).total = (dedup (extractArticles ctx cands)).length
  ∧ (scrape exampleCtx ((List.range 30).map distinctCand)).articles.length = 20
  ∧ 20 ≤ (scrape exampleCtx ((List.range 30).map distinctCand)).total := by
  refine ⟨?_, ?_, rfl, by rfl, by decide⟩
  · have h := extractLoop_take ctx cands 0 []
    rw [Nat.sub_zero] at h
    exact h
  · show ((dedup (extractArticles ctx cands)).take 20).length ≤ 20
    rw [List.length_take]
    exact min_le_left _ _

/-- C3: the backend's `filter`/`findIndex` deduplication equals
first-occurrence deduplication keyed by the first 50 characters of the
case-folded title: it keeps the first record of each key in original order
and drops every later record with the same key.  `artA`/`artB` differ as
strings but share their first 50 case-folded characters, so `artB` is
dropped while the differently-keyed `artC` survives. -/
theorem c3_dedup_first_occurrence (l : List Article) :
    dedup l = specDedup [] l
  ∧ (∀ a : Article, dedupKey a = strTake (jsToLower a.title) 50)
  ∧ dedupKey artA = dedupKey artB
  ∧ artA.title ≠ artB.title
  ∧ dedupKey artA ≠ dedupKey artC
  ∧ dedup [artA, artB, artC] = [artA, artC] := by
  exact ⟨dedup_eq_specDedup l, fun a => rfl, by decide, by decide, by decide, by decide⟩

/-- C4 counterexample: with two equal-titled candidates followed by a
distinct one, the response records carry ids 1 and 3 — the second record's
id is not its 1-based position, so ids are not dense within the response. -/
theorem c4_counterexample :
    (scrape exampleCtx c4Cands).articles.map (fun a => a.id) = [1, 3]
  ∧ ¬ ((scrape exampleCtx c4Cands).articles.map (fun a => a.id)
        = List.range' 1 (scrape exampleCtx c4Cands).articles.length) :=
  ⟨by decide, by decide⟩

/-- C4 amended: ids are assigned at extraction time as the 1-based position
in the pre-dedup extraction list (dense and unique there); within a
response they are strictly increasing, hence unique, but deduplication can
leave gaps. -/
theorem c4_amended (ctx : ScrapeContext) (cands : List Candidate) :
    (extractArticles ctx cands).map (fun a => a.id)
      = List.range' 1 (extractArticles ctx cands).length
  ∧ ((scrape ctx cands).articles).Pairwise (fun x y => x.id < y.id) := by
  refine ⟨extractArticles_ids ctx cands, ?_⟩
  have h1 : ((extractArticles ctx cands).map (fun a => a.id)).Pairwise (· < ·) := by
    rw [extractArticles_ids ctx cands]
    exact List.pairwise_lt_range' 1 _
  have h2 : (extractArticles ctx cands).Pairwise (fun x y => x.id < y.id) :=
    List.pairwise_map.mp h1
  have hsub : ((scrape ctx cands).articles).Sublist (extractArticles ctx cands) := by
    have ht : ((dedup (extractArticles ctx cands)).take 20).Sublist
        (dedup (extractArticles ctx cands)) := List.take_sublist _ _
    refine ht.trans ?_
    rw [dedup_eq_specDedup]
    exact specDedup_sublist _ []
  exact List.Pairwise.sublist hsub h2

/-- C5: the time normalizer equals the spec's ordered rule table — empty
input gives no value; otherwise "hour"/"hr" wins over "minute"/"min" over
"day", each subtracting the first integer in the text (defaults 1, 30, 1)
from now; otherwise the text goes to absolute date parsing.  Concrete
checks: "2 hours ago" two hours before now, "45 minutes" 45 minutes before
now, empty input none. -/
theorem c5_time_normalizer (now : Int) (parseDate : String → Option Int) (s : String) :
    parseTimeString now parseDate s = specNormalizeTime now parseDate s
  ∧ parseTimeString 7200000 (fun _ => none) "2 hours ago" = some 0
  ∧ parseTimeString 0 (fun _ => none) "45 minutes" = some (-2700000)
  ∧ parseTimeString 0 (fun _ => none) "" = none := by
  refine ⟨?_, by decide, by decide, rfl⟩
  unfold parseTimeString specNormalizeTime
  by_cases hs : s = ""
  · simp [hs]
  · rw [if_neg hs, if_neg hs]
    cases h1 : containsSub (jsToLower s) "hour" <;>
    cases h2 : containsSub (jsToLower s) "hr" <;>
    cases h3 : containsSub (jsToLower s) "minute" <;>
    cases h4 : containsSub (jsToLower s) "min" <;>
    cases h5 : containsSub (jsToLower s) "day" <;>
      simp [specTimeRules, List.find?, List.any_cons, List.any_nil, h1, h2, h3, h4, h5]

/-- C6: the category classifier equals the spec's ordered table (Technology,
Health, Business, Sports, Politics, World; first match wins, else
"General").  "New AI chip breakthrough" is Technology, "Election results
announced" is Politics, and a text matching both a Technology and a Health
keyword is classified Technology. -/
theorem c6_category_priority (content : String) :
    determineCategory content = specClassify content
  ∧ determineCategory "New AI chip breakthrough" = "Technology"
  ∧ determineCategory "Election results announced" = "Politics"
  ∧ matchesAny (jsToLower "AI helps doctors fight disease") techKeywords = true
  ∧ matchesAny (jsToLower "AI helps doctors fight disease") healthKeywords = true
  ∧ determineCategory "AI helps doctors fight disease" = "Technology" := by
  refine ⟨?_, by decide, by decide, by decide, by decide, by decide⟩
  unfold determineCategory specClassify
  cases h1 : matchesAny (jsToLower content) techKeywords <;>
  cases h2 : matchesAny (jsToLower content) healthKeywords <;>
  cases h3 : matchesAny (jsToLower content) businessKeywords <;>
  cases h4 : matchesAny (jsToLower content) sportsKeywords <;>
  cases h5 : matchesAny (jsToLower content) politicsKeywords <;>
  cases h6 : matchesAny (jsToLower content) worldKeywords <;>
    simp [categoryTable, List.find?, h1, h2, h3, h4, h5, h6]

/-- C7 counterexample: the href "http-news/story-1" does not start with a
URI scheme, yet the record keeps it unresolved — the code's test is
`startsWith('http')`, not "starts with a scheme", so the claimed
resolution against the origin does not happen. -/
theorem c7_counterexample :
    startsWithScheme "http-news/story-1" = false
  ∧ (buildArticle exampleCtx c7Cand 0).map (fun a => a.url) = some "http-news/story-1"
  ∧ resolveUrl exampleCtx.origin "http-news/story-1"
      = "https://news.example.com/http-news/story-1"
  ∧ (buildArticle exampleCtx c7Cand 0).map (fun a => a.url)
      ≠ some (resolveUrl exampleCtx.origin "http-news/story-1") :=
  ⟨by decide, by decide, by decide, by decide⟩

/-- C7 amended: the first anchor's href is resolved against the origin of
the requested URL iff it is non-empty and does not start with the literal
prefix "http"; with no anchor the record's url is the requested URL; the
spec's concrete example "/world/story-1" resolves as claimed. -/
theorem c7_amended (ctx : ScrapeContext) (l : String) :
    (l ≠ "" → strStartsWith l "http" = false →
       resolveLink ctx (some l) = resolveUrl ctx.origin l)
  ∧ resolveLink ctx none = ctx.url
  ∧ (∀ (c : Candidate) (len : Nat) (a : Article),
       buildArticle ctx c len = some a → a.url = resolveLink ctx c.href)
  ∧ resolveLink exampleCtx (some "/world/story-1")
      = "https://news.example.com/world/story-1" := by
  refine ⟨?_, ?_, ?_, by decide⟩
  · intro hne hnh
    have hr : resolveUrl ctx.origin l ≠ "" := resolveUrl_ne_empty _ _ hne
    unfold resolveLink
    simp [hne, hnh, hr]
  · simp [resolveLink]
  · intro c len a hb
    exact (buildArticle_fields ctx c len a hb).2.2.2

/-- Witness for C7's amended theorem at the spec's concrete example. -/
theorem c7_amended_witness :
    ("/world/story-1" ≠ "" ∧ strStartsWith "/world/story-1" "http" = false)
  ∧ resolveLink exampleCtx (some "/world/story-1")
      = resolveUrl exampleCtx.origin "/world/story-1" :=
  ⟨⟨by decide, by decide⟩,
   (c7_amended exampleCtx "/world/story-1").1 (by decide) (by decide)⟩

/-- C8: deduplication is idempotent — applying it to its own output yields
the same list. -/
theorem c8_dedup_idempotent (l : List Article) : dedup (dedup l) = dedup l := by
  rw [dedup_eq_specDedup, dedup_eq_specDedup]
  exact specDedup_eq_self _ _
    (fun a _ => List.not_mem_nil (dedupKey a))
    (specDedup_pairwise_keys l [])

/-- C9 counterexample: the hostname "news.www.example.com" has no leading
"www." — the claim says it is unchanged — yet the record's `source` is
"news.example.com": `replace('www.', '')` removes the first occurrence of
"www." anywhere, not only a leading prefix. -/
theorem c9_counterexample :
    strStartsWith "news.www.example.com" "www." = false
  ∧ stripWWW "news.www.example.com" = "news.example.com"
  ∧ stripWWW "news.www.example.com" ≠ "news.www.example.com"
  ∧ (buildArticle c9Ctx (plainCand "Apple Falls From Tree Today in Park") 0).map
      (fun a => a.source) = some "news.example.com" :=
  ⟨by decide, by decide, by decide, by decide⟩

/-- C9 amended: every record's `source` is the requested URL's hostname with
the FIRST occurrence of the substring "www." removed: hostnames not
containing "www." are unchanged, and a leading "www." is stripped. -/
theorem c9_amended (ctx : ScrapeContext) (cands : List Candidate) (h : String) :
    (∀ a ∈ (scrape ctx cands).articles, a.source = stripWWW ctx.hostname)
  ∧ (containsSub h "www." = false → stripWWW h = h)
  ∧ ("www.".data.isPrefixOf h.data = true → (stripWWW h).data = h.data.drop 4) := by
  refine ⟨?_, ?_, ?_⟩
  · intro a ha
    rcases mem_scrape ctx cands a ha with ⟨c, len, hb⟩
    exact (buildArticle_fields ctx c len a hb).2.2.1
  · intro hno
    show (⟨removeFirstOcc "www.".data h.data⟩ : String) = h
    rw [removeFirstOcc_of_no_occ "www.".data h.data hno]
  · intro hp
    show removeFirstOcc "www.".data h.data = h.data.drop 4
    cases hd : h.data with
    | nil =>
      rw [hd] at hp
      exact absurd hp (by decide)
    | cons c rest =>
      rw [hd] at hp
      rw [removeFirstOcc, if_pos hp]
      rfl

/-- Witness for C9's amended theorem: a leading "www." is stripped from
"www.bbc.co.uk", and an interior-free hostname passes unchanged. -/
theorem c9_amended_witness :
    ("www.".data.isPrefixOf "www.bbc.co.uk".data = true
      ∧ (stripWWW "www.bbc.co.uk").data = "www.bbc.co.uk".data.drop 4)
  ∧ (containsSub "news.example.com" "www." = false
      ∧ stripWWW "news.example.com" = "news.example.com") :=
  ⟨⟨by decide, (c9_amended c9Ctx [] "www.bbc.co.uk").2.2 (by decide)⟩,
   ⟨by decide, (c9_amended c9Ctx [] "news.example.com").2.1 (by decide)⟩⟩

/-- C10: the handler destructures only `url` from the request body, so two
requests with the same `url` and different client-supplied `selectors`
produce identical results — the backend always uses its own hard-coded
selector set. -/
theorem c10_selectors_noninterference (env : BackendEnv) (b1 b2 : ScrapeRequestBody)
    (h : b1.url = b2.url) : handleScrape env b1 = handleScrape env b2 := by
  unfold handleScrape
  rw [h]

/-- Witness for C10: same `url`, one body with a custom selector
configuration and one without, identical handler output. -/
theorem c10_selectors_noninterference_witness :
    bodyWithSelectors.url = bodyWithoutSelectors.url
  ∧ handleScrape witnessEnv bodyWithSelectors = handleScrape witnessEnv bodyWithoutSelectors :=
  ⟨rfl, c10_selectors_noninterference witnessEnv bodyWithSelectors bodyWithoutSelectors rfl⟩

end NewsScraper
